import Mathlib

/-!
Shallow embedding of `tableprinter.go` (package `tableprinter`).

The repository file is a rendering-configuration facade over the external
`kataras/tablewriter` grid renderer.  The renderer is an external
collaborator, so its object is modelled as an explicit state record
(`Table`) holding exactly what the facade stores into it: the style
settings transferred once at creation, plus headers, rows and the column
alignment list.  The number of text lines the external renderer would
draw is treated as a parameter `numLines : Table → Nat` (any deterministic
function of the renderer state); theorems quantify over it.

Go slices are `List`, Go `int` is `Int` where negative values can flow in
(numeric column positions) and `Nat` for sizes, pointer mutation is
explicit state passing.  `Render` mutates the caller supplied `headers`
slice in place (index 0 rewrite), so the embedding returns the caller
visible slice contents after the call in the `RenderResult`.
-/

namespace TablePrinter

/-- `type Alignment int` with the four `iota` constants. -/
inductive Alignment
  | default
  | center
  | right
  | left
deriving DecidableEq, Repr

/-- The numeric value of an `Alignment` constant (`iota`: 0, 1, 2, 3). -/
def Alignment.toInt : Alignment → Int
  | .default => 0
  | .center => 1
  | .right => 2
  | .left => 3

/-- State of the external `tablewriter.Table` renderer object, as far as the
facade observes it: the style fields set once at creation by
`acquireTable`, and the content fields (headers, rows, column alignment)
written by `Render` and `RenderRow`.  `out` is an abstract identity of the
output writer. -/
structure Table where
  out : Nat
  alignment : Int
  autoFormatHeaders : Bool
  autoWrapText : Bool
  borderTop : Bool
  borderLeft : Bool
  borderRight : Bool
  borderBottom : Bool
  headerLine : Bool
  headerAlignment : Int
  rowLine : Bool
  columnSeparator : String
  newLine : String
  centerSeparator : String
  headers : List String
  rows : List (List String)
  columnAlignment : List Int

/-- The `Printer` struct: style configuration plus the lazily created and
cached renderer object (`table *tablewriter.Table`, here `Option Table`). -/
structure Printer where
  out : Nat
  AutoFormatHeaders : Bool
  AutoWrapText : Bool
  BorderTop : Bool
  BorderLeft : Bool
  BorderRight : Bool
  BorderBottom : Bool
  HeaderLine : Bool
  HeaderAlignment : Alignment
  RowLine : Bool
  ColumnSeparator : String
  NewLine : String
  CenterSeparator : String
  DefaultAlignment : Alignment
  NumbersAlignment : Alignment
  RowLengthTitle : Option (Nat → Bool)
  AllowRowsOnly : Bool
  table : Option Table

/-- The table built inside `acquireTable` when the cache is empty:
`tablewriter.NewWriter(p.out)` yields an empty table and the twelve `Set*`
calls transfer the style configuration of `p`; content starts empty. -/
def Table.configuredFrom (p : Printer) : Table :=
  { out := p.out,
    alignment := p.DefaultAlignment.toInt,
    autoFormatHeaders := p.AutoFormatHeaders,
    autoWrapText := p.AutoWrapText,
    borderTop := p.BorderTop,
    borderLeft := p.BorderLeft,
    borderRight := p.BorderRight,
    borderBottom := p.BorderBottom,
    headerLine := p.HeaderLine,
    headerAlignment := p.HeaderAlignment.toInt,
    rowLine := p.RowLine,
    columnSeparator := p.ColumnSeparator,
    newLine := p.NewLine,
    centerSeparator := p.CenterSeparator,
    headers := [],
    rows := [],
    columnAlignment := [] }

/-- `func (p *Printer) acquireTable() *tablewriter.Table`: return the cached
renderer, or create it from the current style fields, cache it and return
it.  Returns the renderer together with the updated printer state. -/
def Printer.acquireTable (p : Printer) : Table × Printer :=
  match p.table with
  | some table => (table, p)
  | none =>
      let table := Table.configuredFrom p
      (table, { p with table := some table })

/-- `func (p *Printer) calculateColumnAlignment(numbersColsPosition []int,
size int) []int`: a list of `size` entries; entry `i` is
`NumbersAlignment` when the inner scan over `numbersColsPosition` finds
`i` (the `break` stops at the first match; every match writes the same
value, so this is membership), else `DefaultAlignment`.  The loop body is
factored over the two alignment fields it reads. -/
def columnAlignmentOf (numbersAlignment defaultAlignment : Int) (numbersColsPosition : List Int) (size : Nat) : List Int :=
  (List.range size).map fun (i : Nat) =>
    if numbersColsPosition.any fun j => (i : Int) == j then numbersAlignment
    else defaultAlignment

/-- The method wrapper reading `p.NumbersAlignment` and `p.DefaultAlignment`. -/
def Printer.calculateColumnAlignment (p : Printer) (numbersColsPosition : List Int) (size : Nat) : List Int :=
  columnAlignmentOf p.NumbersAlignment.toInt p.DefaultAlignment.toInt numbersColsPosition size

/-- Lines 185-187 of `Render`: when `RowLengthTitle` is set and fires on the
row count, rewrite the first header in place to
`fmt.Sprintf("%s (%d) ", headers[0], len(rows))`.  Factored over the
`RowLengthTitle` field it reads. -/
def rowLengthTitleRewrite (rlt : Option (Nat → Bool)) (headers : List String) (rowsLength : Nat) : List String :=
  match rlt with
  | some f =>
      if f rowsLength then
        headers.set 0 (headers.headD ("") ++ " (" ++ toString rowsLength ++ ") ")
      else headers
  | none => headers

/-- The method wrapper reading `p.RowLengthTitle`. -/
def Printer.applyRowLengthTitle (p : Printer) (headers : List String) (rowsLength : Nat) : List String :=
  rowLengthTitleRewrite p.RowLengthTitle headers rowsLength

/-- Result of one `Render` call: the returned line count, the printer state
after the call, the caller visible contents of the `headers` and `rows`
slices after the call (Go mutates `headers` in place), and whether the
renderer was asked to draw. -/
structure RenderResult where
  lines : Nat
  printer : Printer
  headersAfter : List String
  rowsAfter : List (List String)
  drew : Bool

/-- `func (p *Printer) Render(headers []string, rows [][]string,
numbersColsPosition []int, reset bool) int`, line by line: acquire the
renderer; clear headers and rows when `reset`; when headers are present
apply the row-count title rewrite and set them, otherwise return 0 unless
`AllowRowsOnly`; append the rows in bulk, set the column alignment sized
by the header count, draw, and return the line count of the renderer
(`numLines` is the external deterministic line count). -/
def Printer.Render (numLines : Table → Nat) (p : Printer) (headers : List String) (rows : List (List String)) (numbersColsPosition : List Int) (reset : Bool) : RenderResult :=
  let acq := p.acquireTable
  let table := if reset then { acq.1 with headers := [], rows := [] } else acq.1
  if 0 < headers.length then
    let headers := p.applyRowLengthTitle headers rows.length
    let table := { table with headers := headers }
    let table := { table with rows := table.rows ++ rows }
    let table := { table with columnAlignment := p.calculateColumnAlignment numbersColsPosition headers.length }
    { lines := numLines table, printer := { acq.2 with table := some table },
      headersAfter := headers, rowsAfter := rows, drew := true }
  else if !p.AllowRowsOnly then
    -- "if not allow to print anything without headers, then exit."
    { lines := 0, printer := { acq.2 with table := some table },
      headersAfter := headers, rowsAfter := rows, drew := false }
  else
    let table := { table with rows := table.rows ++ rows }
    let table := { table with columnAlignment := p.calculateColumnAlignment numbersColsPosition headers.length }
    { lines := numLines table, printer := { acq.2 with table := some table },
      headersAfter := headers, rowsAfter := rows, drew := true }

/-- `func (p *Printer) RenderRow(row []string, numbersColsPosition []int)
int`: acquire the renderer, set the column alignment recomputed from the
row length and the numeric positions of this call, then
`table.RenderRowOnce(row)`.  `RenderRowOnce` is external
(`kataras/tablewriter` extension); modelled from the spec: it appends the
one row and immediately draws it, returning the lines produced for that
call alone, here the parameter `rowLines` applied to the renderer state
and the row. -/
def Printer.RenderRow (rowLines : Table → List String → Nat) (p : Printer) (row : List String) (numbersColsPosition : List Int) : Nat × Printer :=
  let acq := p.acquireTable
  let table := { acq.1 with columnAlignment := p.calculateColumnAlignment numbersColsPosition row.length }
  (rowLines table row, { acq.2 with table := some { table with rows := table.rows ++ [row] } })

/-- Modelled from the spec: `extractCells` (the Row Extractor) is not under
`src/`; per the scalar case of the spec, a bare-list element contributes
one row holding the string form of the element, and a non-numeric scalar
element contributes no numeric column position.  Elements are taken as
strings (a bare list of scalars). -/
def extractCellsScalar (item : String) : List Int × List String :=
  ([], [item])

/-- The accumulation loop of `PrintHeadList`: for each element, extract its
cells, append the row, and append the numeric position contributions. -/
def printHeadListAccum (list : List String) : List (List String) × List Int :=
  list.foldl
    (fun acc item =>
      let cr := extractCellsScalar item
      (acc.1 ++ [cr.2], acc.2 ++ cr.1))
    ([], [])

/-- `func (p *Printer) PrintHeadList(list interface{}, header string,
filters ...interface{}) int`: loop over the elements extracting one row
each, then `p.Render([]string{header}, rows, numbersColsPosition, true)`.
The `filters` parameter is accepted but never referenced by the body
(faithful to the source).  The slice-kind guard always passes here since
the input is a list. -/
def Printer.PrintHeadList (numLines : Table → Nat) (p : Printer) (list : List String) (header : String) (filters : List (String → Bool)) : RenderResult :=
  let acc := printHeadListAccum list
  p.Render numLines [header] acc.1 acc.2 true

/-- The package `Default` printer value (output target `os.Stdout`
abstracted as writer 0). -/
def Default : Printer :=
  { out := 0,
    AutoFormatHeaders := true,
    AutoWrapText := false,
    BorderTop := false,
    BorderLeft := false,
    BorderRight := false,
    BorderBottom := false,
    HeaderLine := true,
    HeaderAlignment := Alignment.left,
    RowLine := false,
    ColumnSeparator := " ",
    NewLine := "\n",
    CenterSeparator := " ",
    DefaultAlignment := Alignment.left,
    NumbersAlignment := Alignment.right,
    RowLengthTitle := some fun rowsLength => decide (3 < rowsLength),
    AllowRowsOnly := true,
    table := none }

/-- `func New(w io.Writer) *Printer`: a printer with the default values and
the given output target. -/
def New (w : Nat) : Printer :=
  { out := w,
    AutoFormatHeaders := Default.AutoFormatHeaders,
    AutoWrapText := Default.AutoWrapText,
    BorderTop := Default.BorderTop,
    BorderLeft := Default.BorderLeft,
    BorderRight := Default.BorderRight,
    BorderBottom := Default.BorderBottom,
    HeaderLine := Default.HeaderLine,
    HeaderAlignment := Default.HeaderAlignment,
    RowLine := Default.RowLine,
    ColumnSeparator := Default.ColumnSeparator,
    NewLine := Default.NewLine,
    CenterSeparator := Default.CenterSeparator,
    DefaultAlignment := Default.DefaultAlignment,
    NumbersAlignment := Default.NumbersAlignment,
    RowLengthTitle := Default.RowLengthTitle,
    AllowRowsOnly := Default.AllowRowsOnly,
    table := none }

/-- The rows currently held by the cached renderer of a printer (empty when
no renderer has been created yet, matching a freshly created renderer). -/
def Printer.cachedRows (p : Printer) : List (List String) :=
  match p.table with
  | some t => t.rows
  | none => []

/-- The headers currently held by the cached renderer of a printer. -/
def Printer.cachedHeaders (p : Printer) : List String :=
  match p.table with
  | some t => t.headers
  | none => []

/-- The column alignment currently held by the cached renderer of a printer. -/
def Printer.cachedAlignment (p : Printer) : List Int :=
  match p.table with
  | some t => t.columnAlignment
  | none => []

/-! ## Helper lemmas -/

/-- The alignment computation written as membership in the position list. -/
theorem calculateColumnAlignment_eq_map (p : Printer) (nums : List Int) (size : Nat) :
    p.calculateColumnAlignment nums size =
      (List.range size).map fun (i : Nat) =>
        if (i : Int) ∈ nums then p.NumbersAlignment.toInt else p.DefaultAlignment.toInt := by
  unfold Printer.calculateColumnAlignment columnAlignmentOf
  refine List.map_congr_left fun i _ => ?_
  by_cases h : (i : Int) ∈ nums
  · have hany : (nums.any fun j => (i : Int) == j) = true :=
      List.any_eq_true.mpr ⟨(i : Int), h, by simp⟩
    rw [hany]
    simp [h]
  · have hany : (nums.any fun j => (i : Int) == j) = false := by
      rw [List.any_eq_false]
      intro j hj
      rcases eq_or_ne (i : Int) j with rfl | hne
      · exact absurd hj h
      · simpa using hne
    rw [hany]
    simp [h]

theorem calculateColumnAlignment_length (p : Printer) (nums : List Int) (size : Nat) :
    (p.calculateColumnAlignment nums size).length = size := by
  rw [calculateColumnAlignment_eq_map, List.length_map, List.length_range]

/-! ## Claims -/

/-- C3: `calculateColumnAlignment` returns exactly `size` alignments, with
`NumbersAlignment` exactly at the positions occurring in the list and
`DefaultAlignment` elsewhere, and the result depends on the position list
only as a set (duplicates and order do not matter). -/
theorem calculateColumnAlignment_spec (p : Printer) (size : Nat) (nums nums2 : List Int)
    (hset : ∀ j : Int, j ∈ nums ↔ j ∈ nums2) :
    (p.calculateColumnAlignment nums size).length = size ∧
    (∀ i : Nat, i < size →
      (p.calculateColumnAlignment nums size)[i]! =
        if (i : Int) ∈ nums then p.NumbersAlignment.toInt else p.DefaultAlignment.toInt) ∧
    p.calculateColumnAlignment nums size = p.calculateColumnAlignment nums2 size := by
  refine ⟨calculateColumnAlignment_length p nums size, ?_, ?_⟩
  · intro i hi
    rw [calculateColumnAlignment_eq_map]
    rw [getElem!_pos ((List.range size).map fun (k : Nat) =>
      if (k : Int) ∈ nums then p.NumbersAlignment.toInt else p.DefaultAlignment.toInt)
      i (by simpa using hi)]
    simp
  · rw [calculateColumnAlignment_eq_map, calculateColumnAlignment_eq_map]
    exact List.map_congr_left fun i _ => if_congr (hset (i : Int)) rfl rfl

/-- Witness for C3 at a concrete printer, size and position lists. -/
theorem calculateColumnAlignment_spec_witness :
    ((New 0).calculateColumnAlignment [1, 1] 3).length = 3 ∧
    ((New 0).calculateColumnAlignment [1, 1] 3)[1]! = 2 ∧
    (New 0).calculateColumnAlignment [1, 1] 3 = (New 0).calculateColumnAlignment [1] 3 := by
  have h := calculateColumnAlignment_spec (New 0) 3 [1, 1] [1] (by intro j; simp)
  refine ⟨h.1, ?_, h.2.2⟩
  have h1 := h.2.1 1 (by decide)
  simpa using h1

/-- Alignment of zero columns is the empty list. -/
theorem calculateColumnAlignment_zero (p : Printer) (nums : List Int) :
    p.calculateColumnAlignment nums 0 = [] := rfl

/-- C10: `calculateColumnAlignment` is total — for every size and every
position list (duplicates, negative or out-of-range entries included) it
returns exactly `size` entries and ignores indices outside `[0, size)`;
and a `Render` call with empty headers and `AllowRowsOnly` true draws the
rows with an empty alignment list, and the numeric column positions have
no effect on the call. -/
theorem calculateColumnAlignment_total (numLines : Table → Nat) (p : Printer)
    (rows : List (List String)) (nums nums2 : List Int) (reset : Bool) (size : Nat)
    (ha : p.AllowRowsOnly = true) :
    (p.calculateColumnAlignment nums size).length = size ∧
    p.calculateColumnAlignment nums size =
      p.calculateColumnAlignment
        (nums.filter fun j => decide (0 ≤ j) && decide (j < (size : Int))) size ∧
    (p.Render numLines [] rows nums reset).printer.cachedAlignment = [] ∧
    (p.Render numLines [] rows nums reset).drew = true ∧
    p.Render numLines [] rows nums reset = p.Render numLines [] rows nums2 reset := by
  refine ⟨calculateColumnAlignment_length p nums size, ?_, ?_, ?_, ?_⟩
  · rw [calculateColumnAlignment_eq_map, calculateColumnAlignment_eq_map]
    refine List.map_congr_left fun i hi => ?_
    have hi2 : i < size := List.mem_range.mp hi
    refine if_congr ?_ rfl rfl
    constructor
    · intro hmem
      refine List.mem_filter.mpr ⟨hmem, ?_⟩
      simp only [Bool.and_eq_true, decide_eq_true_eq]
      exact ⟨Int.ofNat_nonneg i, by exact_mod_cast hi2⟩
    · intro hmem
      exact (List.mem_filter.mp hmem).1
  · cases hp : p.table <;>
      simp [Printer.Render, Printer.acquireTable, hp, ha, Printer.cachedAlignment,
        calculateColumnAlignment_zero]
  · cases hp : p.table <;>
      simp [Printer.Render, Printer.acquireTable, hp, ha]
  · cases hp : p.table <;>
      simp [Printer.Render, Printer.acquireTable, hp, ha, calculateColumnAlignment_zero]

/-- Witness for C10 at a concrete printer, size, position lists and render
call. -/
theorem calculateColumnAlignment_total_witness :
    ((New 0).calculateColumnAlignment [0, -7, 9] 2).length = 2 ∧
    (New 0).calculateColumnAlignment [0, -7, 9] 2 =
      (New 0).calculateColumnAlignment
        ([0, -7, 9].filter fun j => decide (0 ≤ j) && decide (j < (2 : Int))) 2 ∧
    ((New 0).Render (fun t => t.rows.length) [] [["a"], ["b"]] [0, -7, 9] true).printer.cachedAlignment = [] ∧
    ((New 0).Render (fun t => t.rows.length) [] [["a"], ["b"]] [0, -7, 9] true).drew = true ∧
    (New 0).Render (fun t => t.rows.length) [] [["a"], ["b"]] [0, -7, 9] true =
      (New 0).Render (fun t => t.rows.length) [] [["a"], ["b"]] [5] true :=
  calculateColumnAlignment_total (fun t => t.rows.length) (New 0) [["a"], ["b"]]
    [0, -7, 9] [5] true 2 rfl

/-- The caller visible rows slice is never modified by `Render`. -/
theorem render_rowsAfter (numLines : Table → Nat) (p : Printer) (headers : List String)
    (rows : List (List String)) (nums : List Int) (reset : Bool) :
    (p.Render numLines headers rows nums reset).rowsAfter = rows := by
  cases hp : p.table <;> by_cases hh : 0 < headers.length <;> cases hb : p.AllowRowsOnly <;>
    simp [Printer.Render, Printer.acquireTable, hp, hh, hb]

/-- With headers present, the caller visible headers slice after `Render` is
the row-count title rewrite of the input. -/
theorem render_headersAfter (numLines : Table → Nat) (p : Printer) (headers : List String)
    (rows : List (List String)) (nums : List Int) (reset : Bool) (hh : 0 < headers.length) :
    (p.Render numLines headers rows nums reset).headersAfter =
      p.applyRowLengthTitle headers rows.length := by
  cases hp : p.table <;> simp [Printer.Render, Printer.acquireTable, hp, hh]

/-- Setting index 0 leaves every other index unchanged (also out of bounds). -/
theorem getElem_bang_set_zero_ne (l : List String) (v : String) (k : Nat) (hk : k ≠ 0) :
    (l.set 0 v)[k]! = l[k]! := by
  by_cases h : k < l.length
  · rw [getElem!_pos (l.set 0 v) k (by simpa using h), getElem!_pos l k h]
    have h0 : (0 : Nat) ≠ k := Ne.symm hk
    simp [List.getElem_set, h0]
  · rw [getElem!_neg (l.set 0 v) k (by simpa using h), getElem!_neg l k (by simpa using h)]

/-- C1: a `Render` call with empty headers on a printer that disallows
headerless output returns 0 lines, performs no draw, and appends nothing:
the cached renderer content is only what `reset` left there. -/
theorem render_zero_headers_disallowed (numLines : Table → Nat) (p : Printer)
    (headers : List String) (rows : List (List String)) (nums : List Int) (reset : Bool)
    (hh : headers = []) (ha : p.AllowRowsOnly = false) :
    (p.Render numLines headers rows nums reset).lines = 0 ∧
    (p.Render numLines headers rows nums reset).drew = false ∧
    (p.Render numLines headers rows nums reset).printer.cachedRows =
      (if reset then [] else p.cachedRows) ∧
    (p.Render numLines headers rows nums reset).printer.cachedHeaders =
      (if reset then [] else p.cachedHeaders) := by
  subst hh
  cases hp : p.table <;> cases reset <;>
    simp [Printer.Render, Printer.acquireTable, hp, ha, Printer.cachedRows,
      Printer.cachedHeaders, Table.configuredFrom]

/-- Deterministic sample line count of the external renderer, used by the
concrete witnesses. -/
def nlSample : Table → Nat := fun t => t.rows.length

/-- A default-styled printer that disallows headerless output. -/
def pDisallow : Printer := { New 0 with AllowRowsOnly := false }

/-- Witness for C1 at a concrete printer and call. -/
theorem render_zero_headers_disallowed_witness :
    (pDisallow.Render nlSample [] [["r"]] [3] true).lines = 0 ∧
    (pDisallow.Render nlSample [] [["r"]] [3] true).drew = false ∧
    (pDisallow.Render nlSample [] [["r"]] [3] true).printer.cachedRows = [] ∧
    (pDisallow.Render nlSample [] [["r"]] [3] true).printer.cachedHeaders = [] := by
  have h := render_zero_headers_disallowed nlSample pDisallow [] [["r"]] [3] true rfl rfl
  exact ⟨h.1, h.2.1, h.2.2.1, h.2.2.2⟩

/-- C4: with headers present, the first header is rewritten to
`label ++ " (N) "` (N the row count) exactly when `RowLengthTitle` is set
and fires on the row count; the rewrite touches only index 0 and no row
content; otherwise the headers pass through unchanged. -/
theorem render_rowLengthTitle_rewrite (numLines : Table → Nat) (p : Printer)
    (headers : List String) (rows : List (List String)) (nums : List Int) (reset : Bool)
    (hh : 0 < headers.length) :
    (p.RowLengthTitle = none →
      (p.Render numLines headers rows nums reset).headersAfter = headers) ∧
    (∀ f, p.RowLengthTitle = some f → f rows.length = false →
      (p.Render numLines headers rows nums reset).headersAfter = headers) ∧
    (∀ f, p.RowLengthTitle = some f → f rows.length = true →
      (p.Render numLines headers rows nums reset).headersAfter =
        headers.set 0 (headers.headD ("") ++ " (" ++ toString rows.length ++ ") ") ∧
      (∀ k, k ≠ 0 →
        (p.Render numLines headers rows nums reset).headersAfter[k]! = headers[k]!) ∧
      (p.Render numLines headers rows nums reset).rowsAfter = rows) := by
  have hA := render_headersAfter numLines p headers rows nums reset hh
  refine ⟨?_, ?_, ?_⟩
  · intro hr
    rw [hA]
    simp [Printer.applyRowLengthTitle, rowLengthTitleRewrite, hr]
  · intro f hr hf
    rw [hA]
    simp [Printer.applyRowLengthTitle, rowLengthTitleRewrite, hr, hf]
  · intro f hr hf
    have hset : (p.Render numLines headers rows nums reset).headersAfter =
        headers.set 0 (headers.headD ("") ++ " (" ++ toString rows.length ++ ") ") := by
      rw [hA]
      simp [Printer.applyRowLengthTitle, rowLengthTitleRewrite, hr, hf]
    refine ⟨hset, ?_, render_rowsAfter numLines p headers rows nums reset⟩
    intro k hk
    rw [hset]
    exact getElem_bang_set_zero_ne headers _ k hk

/-- Four sample rows, enough to fire the default row-count title policy. -/
def rows4 : List (List String) := [["1"], ["2"], ["3"], ["4"]]

/-- Witness for C4 at a concrete printer and call where the policy fires. -/
theorem render_rowLengthTitle_rewrite_witness :
    ((New 0).Render nlSample [("Name"), ("Age")] rows4 [] true).headersAfter =
      ["Name (4) ", "Age"] ∧
    ((New 0).Render nlSample [("Name"), ("Age")] rows4 [] true).headersAfter[1]! = "Age" ∧
    ((New 0).Render nlSample [("Name"), ("Age")] rows4 [] true).rowsAfter = rows4 := by
  have h := render_rowLengthTitle_rewrite nlSample (New 0) [("Name"), ("Age")] rows4 [] true
    (by decide)
  have h3 := h.2.2 (fun rowsLength => decide (3 < rowsLength)) rfl rfl
  refine ⟨?_, ?_, h3.2.2⟩
  · rw [h3.1]
    decide
  · rw [h3.2.1 1 (by decide)]
    decide

/-- C9: when the row-count title policy fires, `Render` rewrites the caller
supplied headers slice in place at index 0 — the change is observable to
the caller through the slice after the call — while the rows slice is
never modified. -/
theorem render_frame_effects (numLines : Table → Nat) (p : Printer)
    (headers : List String) (rows : List (List String)) (nums : List Int) (reset : Bool)
    (f : Nat → Bool) (hh : 0 < headers.length) (hr : p.RowLengthTitle = some f)
    (hf : f rows.length = true) :
    (p.Render numLines headers rows nums reset).headersAfter[0]! =
      headers[0]! ++ " (" ++ toString rows.length ++ ") " ∧
    (p.Render numLines headers rows nums reset).headersAfter ≠ headers ∧
    (p.Render numLines headers rows nums reset).rowsAfter = rows := by
  have hA := render_headersAfter numLines p headers rows nums reset hh
  cases headers with
  | nil => simp at hh
  | cons a t =>
      rw [hA] at *
      have hl1 : (" (" : String).length = 2 := rfl
      have hl2 : ((") ") : String).length = 2 := rfl
      constructor
      · simp [Printer.applyRowLengthTitle, rowLengthTitleRewrite, hr, hf]
      · constructor
        · simp only [Printer.applyRowLengthTitle, rowLengthTitleRewrite, hr, hf, if_pos, List.headD_cons,
            List.set_cons_zero, ne_eq, List.cons.injEq, not_and]
          intro e
          have hlen := congrArg String.length e
          simp only [String.length_append, hl1, hl2] at hlen
          omega
        · exact render_rowsAfter numLines p (a :: t) rows nums reset

/-- Four sample rows used by the C9 witness. -/
def rowsW : List (List String) := [["a"], ["b"], ["c"], ["d"]]

/-- Witness for C9 at a concrete printer and call where the policy fires. -/
theorem render_frame_effects_witness :
    ((New 1).Render nlSample [("H")] rowsW [] true).headersAfter[0]! = "H (4) " ∧
    ((New 1).Render nlSample [("H")] rowsW [] true).headersAfter ≠ [("H")] ∧
    ((New 1).Render nlSample [("H")] rowsW [] true).rowsAfter = rowsW := by
  have h := render_frame_effects nlSample (New 1) [("H")] rowsW [] true
    (fun rowsLength => decide (3 < rowsLength)) (by decide) rfl rfl
  refine ⟨?_, h.2.1, h.2.2⟩
  rw [h.1]
  decide

/-- C5: calling `Render` with `reset = true` twice on the same printer with
identical headers, rows and numeric column positions produces the same
line count on both calls (for any deterministic external line count). -/
theorem render_reset_twice_same_lines (numLines : Table → Nat) (p : Printer)
    (headers : List String) (rows : List (List String)) (nums : List Int) :
    ((p.Render numLines headers rows nums true).printer.Render numLines headers rows nums true).lines =
      (p.Render numLines headers rows nums true).lines := by
  cases hp : p.table <;> by_cases hh : 0 < headers.length <;> cases hb : p.AllowRowsOnly <;>
    simp [Printer.Render, Printer.acquireTable, Printer.applyRowLengthTitle,
      Printer.calculateColumnAlignment, hp, hh, hb]

/-- C7: the renderer object is created at most once — when the cache is
empty it is built from the current style configuration and cached;
whenever a renderer is cached it is returned untouched, so two printers
sharing the cached renderer but differing in every style field still get
the same renderer back (mutating style after the first render call has no
effect); and every `Render` call leaves a cached renderer behind. -/
theorem acquireTable_lazy_cached (p q : Printer) (t : Table) (numLines : Table → Nat)
    (headers : List String) (rows : List (List String)) (nums : List Int) (reset : Bool) :
    (p.table = none →
      p.acquireTable =
        (Table.configuredFrom p, { p with table := some (Table.configuredFrom p) })) ∧
    (p.table = some t → p.acquireTable = (t, p)) ∧
    (p.table = some t → q.table = some t → (p.acquireTable).1 = (q.acquireTable).1) ∧
    ((p.Render numLines headers rows nums reset).printer.table).isSome = true := by
  refine ⟨?_, ?_, ?_, ?_⟩
  · intro hp
    simp [Printer.acquireTable, hp]
  · intro hp
    simp [Printer.acquireTable, hp]
  · intro hp hq
    simp [Printer.acquireTable, hp, hq]
  · cases hp : p.table <;> by_cases hh : 0 < headers.length <;> cases hb : p.AllowRowsOnly <;>
      simp [Printer.Render, Printer.acquireTable, hp, hh, hb]

/-- A sample renderer state shared by two differently styled printers. -/
def tW : Table := Table.configuredFrom (New 0)

/-- A printer already holding the cached renderer `tW`. -/
def pW : Printer := { New 0 with table := some tW }

/-- A printer with every alignment style mutated, holding the same cached
renderer `tW`. -/
def qW : Printer :=
  { New 2 with
    DefaultAlignment := Alignment.center
    NumbersAlignment := Alignment.center
    table := some tW }

/-- Witness for C7 at concrete printers with and without a cached renderer. -/
theorem acquireTable_lazy_cached_witness :
    (New 3).acquireTable =
      (Table.configuredFrom (New 3), { New 3 with table := some (Table.configuredFrom (New 3)) }) ∧
    pW.acquireTable = (tW, pW) ∧
    (pW.acquireTable).1 = (qW.acquireTable).1 ∧
    ((pW.Render nlSample [("h")] [] [] true).printer.table).isSome = true := by
  have h1 := acquireTable_lazy_cached (New 3) qW tW nlSample [("h")] [] [] true
  have h2 := acquireTable_lazy_cached pW qW tW nlSample [("h")] [] [] true
  exact ⟨h1.1 rfl, h2.2.1 rfl, h2.2.2.1 rfl rfl, h2.2.2.2⟩

/-- The accumulation loop of `PrintHeadList`, from any starting accumulator:
one singleton row per element, no numeric position contributions. -/
theorem printHeadListAccum_go (list : List String) (r : List (List String)) :
    list.foldl
      (fun acc item =>
        let cr := extractCellsScalar item
        (acc.1 ++ [cr.2], acc.2 ++ cr.1))
      (r, ([] : List Int)) =
      (r ++ list.map fun x => [x], ([] : List Int)) := by
  induction list generalizing r with
  | nil => simp
  | cons a l ih =>
      rw [List.foldl_cons]
      show List.foldl _ (r ++ [[a]], ([] : List Int)) l = _
      rw [ih]
      simp

/-- The assembled rows are one singleton row per element and the numeric
position set is empty. -/
theorem printHeadListAccum_eq (list : List String) :
    printHeadListAccum list = (list.map fun x => [x], []) := by
  unfold printHeadListAccum
  simpa using printHeadListAccum_go list []

/-- Counterexample to C2: a filter predicate whose shape matches the element
shape and returns `false` on the element does not exclude it — the element
is still among the rows of the rendered table, because `PrintHeadList`
never consults its `filters` argument. -/
theorem printHeadList_filter_not_excluding_cex :
    ((fun (_ : String) => false) ("x")) = false ∧
    ((New 0).PrintHeadList nlSample [("x")] ("Item") [fun _ => false]).printer.cachedRows =
      [["x"]] := by
  exact ⟨rfl, rfl⟩

/-- C2 (amended): `PrintHeadList` accepts filter predicates but ignores them
entirely — the call is identical to one with no filters, and every list
element contributes its row regardless of any predicate. -/
theorem printHeadList_ignores_filters (numLines : Table → Nat) (p : Printer)
    (list : List String) (header : String) (filters : List (String → Bool)) :
    p.PrintHeadList numLines list header filters =
      p.PrintHeadList numLines list header [] ∧
    (printHeadListAccum list).1 = (list.map fun x => [x]) := by
  exact ⟨rfl, by rw [printHeadListAccum_eq]⟩

/-- Counterexample to C6: on a default-configured printer, a four element
list makes the row-count title policy fire inside `Render`, so the
rendered table holds the decorated header `"Item (4) "`, not exactly the
caller supplied label. -/
theorem printHeadList_header_decorated_cex :
    ((New 0).PrintHeadList nlSample [("x"), ("y"), ("z"), ("w")] ("Item") []).printer.cachedHeaders =
      ["Item (4) "] ∧
    ¬ ((New 0).PrintHeadList nlSample [("x"), ("y"), ("z"), ("w")] ("Item") []).printer.cachedHeaders =
      [("Item")] := by
  constructor
  · decide
  · decide

/-- C6 (amended): `PrintHeadList` assembles exactly the triple it hands to
the renderer — the single caller supplied label as header list, one
singleton row per slice element in order, and an empty numeric position
set; inside `Render` the row-count title policy may then decorate that
label. -/
theorem printHeadList_triple (numLines : Table → Nat) (p : Printer)
    (list : List String) (header : String) (filters : List (String → Bool)) :
    (printHeadListAccum list).1 = (list.map fun x => [x]) ∧
    (printHeadListAccum list).2 = [] ∧
    p.PrintHeadList numLines list header filters =
      p.Render numLines [header] (list.map fun x => [x]) [] true := by
  have h := printHeadListAccum_eq list
  refine ⟨by rw [h], by rw [h], ?_⟩
  simp only [Printer.PrintHeadList, h]

/-- Sample per-row line count of the external renderer. -/
def rlSample : Table → List String → Nat := fun _ _ => 1

/-- Counterexample to C8: after a `Render` that established the column
alignment `[2, 3]` (numeric column 0), a `RenderRow` call with no numeric
positions draws with the recomputed alignment `[3, 3]`, not with the
previously established one. -/
theorem renderRow_not_previous_alignment_cex :
    ((New 4).Render nlSample [("a"), ("b")] [] [0] true).printer.cachedAlignment = [2, 3] ∧
    (((New 4).Render nlSample [("a"), ("b")] [] [0] true).printer.RenderRow rlSample
      ["x", "y"] []).2.cachedAlignment = [3, 3] ∧
    ¬ ([3, 3] : List Int) = [2, 3] := by
  refine ⟨by decide, by decide, by decide⟩

/-- C8 (amended): `RenderRow` appends exactly one additional row and
immediately draws it, but using a column alignment recomputed from this
numeric positions of this call and the length of the row (not the previously
established alignment); the returned integer is the line count of that
single draw. -/
theorem renderRow_appends_one_row (rowLines : Table → List String → Nat) (p : Printer)
    (row : List String) (nums : List Int) :
    (p.RenderRow rowLines row nums).2.cachedRows = p.cachedRows ++ [row] ∧
    (p.RenderRow rowLines row nums).2.cachedAlignment =
      p.calculateColumnAlignment nums row.length ∧
    (p.RenderRow rowLines row nums).1 =
      rowLines
        { (p.acquireTable).1 with
          columnAlignment := p.calculateColumnAlignment nums row.length } row := by
  cases hp : p.table <;>
    simp [Printer.RenderRow, Printer.acquireTable, Printer.cachedRows,
      Printer.cachedAlignment, hp, Table.configuredFrom]

end TablePrinter
